import Mathlib

/-!
Verification of the evaluation subsystem of the folder_sort repository
(`src/evaluation.py`), shallowly embedded in Lean 4.

The embedding models `ClassificationEvaluator` (state + `add_prediction`,
`calculate_metrics`, `analyze_errors`, `performance_benchmarks`,
`save_evaluation_report`) and the write path of `GroundTruthManager`.
Python floats are modelled as exact rationals; `datetime.now()` is an
explicit `now : String` parameter; Python exceptions are an `Except` layer,
while a returned error dict (the code returns `{"error": ...}` for empty
input instead of raising) is a value-level constructor.
-/

/-- State of a `ClassificationEvaluator` object: the caller-supplied roster
and the four accumulating lists set up in `__init__`. -/
structure EvaluatorState where
  categories : List String
  predictions : List String
  ground_truth : List String
  processing_times : List ℚ
  confidence_scores : List ℚ
deriving DecidableEq

/-- `ClassificationEvaluator.__init__(categories)`: empty record lists. -/
def mkEvaluator (categories : List String) : EvaluatorState :=
  ⟨categories, [], [], [], []⟩

/-- Python truthiness of an optional float argument: `None` and `0.0` are
falsy, every other float is truthy.  Used by `add_prediction`, which guards
the appends with `if processing_time:` / `if confidence:`. -/
def truthyFloat : Option ℚ → Bool
  | none => false
  | some t => t ≠ 0

/-- `ClassificationEvaluator.add_prediction(predicted, actual,
processing_time, confidence)`: always appends to `predictions` and
`ground_truth`; appends to `processing_times` / `confidence_scores` only
when the optional argument is truthy. -/
def add_prediction (s : EvaluatorState) (predicted actual : String)
    (processing_time : Option ℚ) (confidence : Option ℚ) : EvaluatorState :=
  { s with
    predictions := s.predictions ++ [predicted]
    ground_truth := s.ground_truth ++ [actual]
    processing_times :=
      if truthyFloat processing_time then
        s.processing_times ++ [processing_time.getD 0]
      else s.processing_times
    confidence_scores :=
      if truthyFloat confidence then
        s.confidence_scores ++ [confidence.getD 0]
      else s.confidence_scores }

/-! ### Per-class counting, mirroring sklearn's
`precision_recall_fscore_support` with `zero_division=0`.
Records are handled as `(actual, predicted)` pairs. -/

/-- Support of a category: occurrences in the ground-truth sequence. -/
def supportOf (acts : List String) (c : String) : ℕ :=
  acts.countP (fun a => a == c)

/-- True positives for a category: positions where both the actual and the
predicted label are that category. -/
def tpOf (acts preds : List String) (c : String) : ℕ :=
  (acts.zip preds).countP (fun r => r.1 == c && r.2 == c)

/-- TP + FP for a category: total occurrences in the predicted sequence. -/
def predCountOf (preds : List String) (c : String) : ℕ :=
  preds.countP (fun p => p == c)

/-- Per-class precision, `zero_division=0`: TP / (TP + FP), 0 when the
category is never predicted. -/
def precisionOf (acts preds : List String) (c : String) : ℚ :=
  if predCountOf preds c = 0 then 0
  else (tpOf acts preds c : ℚ) / (predCountOf preds c : ℚ)

/-- Per-class recall, `zero_division=0`: TP / (TP + FN), 0 when the
category never occurs in the ground truth. -/
def recallOf (acts preds : List String) (c : String) : ℚ :=
  if supportOf acts c = 0 then 0
  else (tpOf acts preds c : ℚ) / (supportOf acts c : ℚ)

/-- Per-class F1, `zero_division=0`: harmonic mean of precision and recall,
0 when both are 0. -/
def f1Of (acts preds : List String) (c : String) : ℚ :=
  let p := precisionOf acts preds c
  let r := recallOf acts preds c
  if p + r = 0 then 0 else 2 * p * r / (p + r)

/-- First-occurrence deduplication, keeping the order of first appearance.
(Mathlib's `List.dedup` keeps last occurrences, hence this local def.) -/
def firstSeen : List String → List String
  | [] => []
  | k :: rest => k :: (firstSeen rest).filter (fun x => x ≠ k)

/-- The label set sklearn uses when `labels=None` is passed to
`precision_recall_fscore_support` (as the source does for its macro and
weighted averages): the distinct labels occurring in `y_true ∪ y_pred`.
sklearn returns them sorted; only the set matters for the unweighted and
weighted means computed from it, so the embedding keeps first-seen order. -/
def presentLabels (acts preds : List String) : List String :=
  firstSeen (acts ++ preds)

/-- A precision/recall/F1 triple (the `macro_metrics` / `weighted_metrics`
sub-dicts of the snapshot). -/
structure AvgMetrics where
  precision : ℚ
  recall_score : ℚ
  f1_score : ℚ
deriving DecidableEq

/-- Unweighted mean of a per-class metric over the labels present in the
session — what `average='macro'` with `labels=None` computes. -/
def macroOf (acts preds : List String) (f : String → ℚ) : ℚ :=
  let ls := presentLabels acts preds
  (ls.map f).sum / (ls.length : ℚ)

/-- Support-weighted mean of a per-class metric over the labels present in
the session — what `average='weighted'` with `labels=None` computes. -/
def weightedOf (acts preds : List String) (f : String → ℚ) : ℚ :=
  let ls := presentLabels acts preds
  (ls.map (fun c => (supportOf acts c : ℚ) * f c)).sum /
    (ls.map (fun c => (supportOf acts c : ℚ))).sum

/-- `sklearn.metrics.confusion_matrix(y_true, y_pred, labels=cats)`:
cell (i, j) counts the records whose actual label is `cats[i]` and whose
predicted label is `cats[j]`; records carrying a label outside `cats`
contribute to no cell. -/
def confusionMatrixOf (acts preds cats : List String) : List (List ℕ) :=
  cats.map (fun a => cats.map (fun p =>
    (acts.zip preds).countP (fun r => r.1 == a && r.2 == p)))

/-- `accuracy_score(y_true, y_pred)`: fraction of positions where the two
sequences agree (lengths are checked equal before this is reached). -/
def accuracyOf (acts preds : List String) : ℚ :=
  ((acts.zip preds).countP (fun r => r.1 == r.2) : ℚ) / (acts.length : ℚ)

/-! ### Latency helpers (numpy) -/

/-- `np.mean` over exact rationals. -/
def meanQ (l : List ℚ) : ℚ := l.sum / (l.length : ℚ)

/-- `np.median`: middle of the sorted data, or mean of the two middles. -/
def medianQ (l : List ℚ) : ℚ :=
  let srt := l.insertionSort (· ≤ ·)
  if l.length % 2 = 1 then srt.getD (l.length / 2) 0
  else (srt.getD (l.length / 2 - 1) 0 + srt.getD (l.length / 2) 0) / 2

/-- `np.min` (0 on the empty list, unreachable in the source). -/
def minQ : List ℚ → ℚ
  | [] => 0
  | h :: t => t.foldl min h

/-- `np.max` (0 on the empty list, unreachable in the source). -/
def maxQ : List ℚ → ℚ
  | [] => 0
  | h :: t => t.foldl max h

/-- Floor of a non-negative rational as a natural number. -/
def natFloorQ (q : ℚ) : ℕ := q.num.toNat / q.den

/-- Ceiling of a non-negative rational as a natural number. -/
def natCeilQ (q : ℚ) : ℕ := (q.num.toNat + q.den - 1) / q.den

/-- `np.percentile(times, q)` with the default linear interpolation:
position `h = (n-1)·q/100` in the sorted data, interpolating between the
values at `⌊h⌋` and `⌈h⌉`. -/
def percentileQ (l : List ℚ) (q : ℚ) : ℚ :=
  let srt := l.insertionSort (· ≤ ·)
  let h : ℚ := ((l.length : ℚ) - 1) * q / 100
  let lo := natFloorQ h
  let hi := natCeilQ h
  srt.getD lo 0 + (h - (lo : ℚ)) * (srt.getD hi 0 - srt.getD lo 0)

/-- Population variance (`ddof=0`).  The source reports
`np.std = sqrt` of this; the square root of a rational is irrational in
general, so the model keeps the radicand — no claim depends on `std`. -/
def varianceQ (l : List ℚ) : ℚ :=
  ((l.map (fun x => (x - meanQ l) ^ 2)).sum) / (l.length : ℚ)

/-! ### `calculate_metrics` -/

/-- One row of `per_class_metrics`. -/
structure PerClassMetrics where
  precision : ℚ
  recall_score : ℚ
  f1_score : ℚ
  support : ℕ
deriving DecidableEq

/-- The `performance` sub-dict of the snapshot (present only when latency
records exist). -/
structure PerfSummary where
  avg_processing_time : ℚ
  median_processing_time : ℚ
  min_processing_time : ℚ
  max_processing_time : ℚ
deriving DecidableEq

/-- The dict returned by `calculate_metrics` on the success path.
`m_avg` and `w_avg` model the `macro_metrics` and `weighted_metrics`
entries. -/
structure MetricsSnapshot where
  timestamp : String
  total_samples : ℕ
  accuracy : ℚ
  m_avg : AvgMetrics
  w_avg : AvgMetrics
  per_class_metrics : List (String × PerClassMetrics)
  confusion_matrix : List (List ℕ)
  performance : Option PerfSummary
deriving DecidableEq

/-- A Python exception escaping from the metric routines.  The source has
no length check of its own: mismatched sequence lengths surface as
sklearn's `ValueError` from `accuracy_score`. -/
inductive SkError where
  | valueError (msg : String)
deriving DecidableEq

/-- Value returned by `calculate_metrics`: either the error-marker dict
`{"error": "No predictions to evaluate"}` (a normal return, not a raise)
or the snapshot dict. -/
inductive MetricsResult where
  | errorDict (msg : String)
  | snapshot (m : MetricsSnapshot)
deriving DecidableEq

/-- The snapshot dict assembled by `calculate_metrics` once both guards
have been passed.  `now` is the value `datetime.now().isoformat()` would
produce at call time. -/
def snapshotOf (now : String) (s : EvaluatorState) : MetricsSnapshot :=
  let acts := s.ground_truth
  let preds := s.predictions
  {
      timestamp := now
      total_samples := s.predictions.length
      accuracy := accuracyOf acts preds
      m_avg := {
        precision := macroOf acts preds (precisionOf acts preds)
        recall_score := macroOf acts preds (recallOf acts preds)
        f1_score := macroOf acts preds (f1Of acts preds) }
      w_avg := {
        precision := weightedOf acts preds (precisionOf acts preds)
        recall_score := weightedOf acts preds (recallOf acts preds)
        f1_score := weightedOf acts preds (f1Of acts preds) }
      per_class_metrics := s.categories.map (fun c =>
        (c, { precision := precisionOf acts preds c
              recall_score := recallOf acts preds c
              f1_score := f1Of acts preds c
              support := supportOf acts c }))
      confusion_matrix := confusionMatrixOf acts preds s.categories
      performance :=
        if s.processing_times = [] then none
        else some {
          avg_processing_time := meanQ s.processing_times
          median_processing_time := medianQ s.processing_times
          min_processing_time := minQ s.processing_times
          max_processing_time := maxQ s.processing_times } }

/-- `ClassificationEvaluator.calculate_metrics`: the empty-input guard
returns the error-marker dict (it does not raise); a length mismatch then
surfaces as sklearn's `ValueError` out of `accuracy_score`; otherwise the
snapshot is assembled. -/
def calculate_metrics (now : String) (s : EvaluatorState) :
    Except SkError MetricsResult :=
  if s.predictions = [] ∨ s.ground_truth = [] then
    Except.ok (MetricsResult.errorDict "No predictions to evaluate")
  else if s.ground_truth.length ≠ s.predictions.length then
    Except.error (SkError.valueError
      "Found input variables with inconsistent numbers of samples")
  else
    Except.ok (MetricsResult.snapshot (snapshotOf now s))

/-- Erase the clock reading from a `calculate_metrics` result, leaving all
other fields intact.  Used to state which part of the snapshot is a pure
function of the record lists. -/
def scrubTime : Except SkError MetricsResult → Except SkError MetricsResult
  | Except.ok (MetricsResult.snapshot m) =>
      Except.ok (MetricsResult.snapshot { m with timestamp := "" })
  | x => x

/-! ### `analyze_errors` -/

/-- One entry of the `errors` list built by `analyze_errors`: the position
of a mismatch, the two labels, and `processing_times[i]` when that index
exists (`None` otherwise — the source guards with `i < len(...)`). -/
structure DetailedError where
  index : ℕ
  predicted : String
  actual : String
  processing_time : Option ℚ
deriving DecidableEq

/-- The mismatch list of `analyze_errors`: enumerate
`zip(predictions, ground_truth)` and keep the disagreeing positions. -/
def errorsOf (s : EvaluatorState) : List DetailedError :=
  (s.predictions.zip s.ground_truth).enum.filterMap (fun e =>
    if e.2.1 ≠ e.2.2 then
      some ⟨e.1, e.2.1, e.2.2, s.processing_times[e.1]?⟩
    else none)

/-- The pattern string built from an error dict entry: the actual label,
a separator, the predicted label.  The separator reproduces the source
bytes exactly: the literal in the file is the UTF-8 arrow mis-decoded once
(U+00E2, U+2020, U+2019), surrounded by spaces. -/
def patternKey (e : DetailedError) : String :=
  e.actual ++ " \u00e2\u2020\u2019 " ++ e.predicted

/-- `error_patterns[pattern] = error_patterns.get(pattern, 0) + 1` on an
insertion-ordered dict, modelled as an association list: bump the count in
place if the key exists, append `(k, 1)` otherwise. -/
def bump : List (String × ℕ) → String → List (String × ℕ)
  | [], k => [(k, 1)]
  | (k', n) :: rest, k =>
      if k' = k then (k', n + 1) :: rest else (k', n) :: bump rest k

/-- The insertion-ordered pattern tally built by the `for error in errors`
loop. -/
def tally (errs : List DetailedError) : List (String × ℕ) :=
  errs.foldl (fun acc e => bump acc (patternKey e)) []

/-- The comparison `sorted(error_patterns.items(), key=lambda x: x[1],
reverse=True)` sorts by: count descending, equal counts kept in dict
(first-seen) order.  Python's sort is stable; a stable insertion sort with
this total preorder produces the same list. -/
def patOrder : (String × ℕ) → (String × ℕ) → Prop :=
  fun a b => b.2 ≤ a.2

instance : DecidableRel patOrder :=
  fun a b => inferInstanceAs (Decidable (b.2 ≤ a.2))

instance : IsTotal (String × ℕ) patOrder :=
  ⟨fun a b => Nat.le_total b.2 a.2⟩

instance : IsTrans (String × ℕ) patOrder :=
  ⟨fun _ _ _ h1 h2 => Nat.le_trans h2 h1⟩

/-- The dict returned by `analyze_errors` on the success path. -/
structure ErrorAnalysis where
  total_errors : ℕ
  error_rate : ℚ
  error_patterns : List (String × ℕ)
  detailed_errors : List DetailedError
deriving DecidableEq

/-- Value returned by `analyze_errors`: the error-marker dict for empty
inputs, the analysis dict otherwise. -/
inductive ErrorsResult where
  | errorDict (msg : String)
  | result (r : ErrorAnalysis)
deriving DecidableEq

/-- `ClassificationEvaluator.analyze_errors`: mismatches, their rate, the
ten most common actual-to-predicted patterns (count-descending, stable),
and the first twenty mismatches in full. -/
def analyze_errors (s : EvaluatorState) : ErrorsResult :=
  if s.predictions = [] ∨ s.ground_truth = [] then
    ErrorsResult.errorDict "No predictions to analyze"
  else
    let errs := errorsOf s
    ErrorsResult.result {
      total_errors := errs.length
      error_rate := (errs.length : ℚ) / (s.predictions.length : ℚ)
      error_patterns := ((tally errs).insertionSort patOrder).take 10
      detailed_errors := errs.take 20 }

/-! ### `performance_benchmarks` -/

/-- The `processing_time` sub-dict of `performance_benchmarks`.  `variance`
stands for the radicand of the reported `std` (see `varianceQ`). -/
structure TimeStats where
  mean : ℚ
  median : ℚ
  variance : ℚ
  p95 : ℚ
  p99 : ℚ
  throughput_per_second : ℚ
deriving DecidableEq

/-- The dict returned by `performance_benchmarks`: the latency section is
present only when `processing_times` is non-empty; `accuracy_by_category`
has an entry for each roster category that occurs in the ground truth. -/
structure Benchmarks where
  processing_time : Option TimeStats
  accuracy_by_category : List (String × ℚ)
deriving DecidableEq

/-- The latency statistics computed when `self.processing_times` is truthy:
`throughput_per_second = 1/mean` when the mean is positive, else `0`. -/
def timeStatsOf (l : List ℚ) : TimeStats :=
  { mean := meanQ l
    median := medianQ l
    variance := varianceQ l
    p95 := percentileQ l 95
    p99 := percentileQ l 99
    throughput_per_second := if 0 < meanQ l then 1 / meanQ l else 0 }

/-- `ClassificationEvaluator.performance_benchmarks`.  The per-category
accuracy uses `predictions[i]` at the ground-truth indices of the category;
the source indexes the list directly (which in Python would raise on an
out-of-range index), modelled totally with a default that is only reachable
when `predictions` is shorter than `ground_truth`. -/
def performance_benchmarks (s : EvaluatorState) : Benchmarks :=
  { processing_time :=
      if s.processing_times = [] then none
      else some (timeStatsOf s.processing_times)
    accuracy_by_category := s.categories.filterMap (fun c =>
      let idxs := (s.ground_truth.enum.filter (fun e => e.2 == c)).map (·.1)
      if idxs = [] then none
      else some (c,
        (idxs.countP (fun i => s.predictions.getD i "" == c) : ℚ) /
          (idxs.length : ℚ))) }

/-! ### The report / ground-truth write path -/

/-- Observable outcome of `with open(filepath, "w") as f: json.dump(x, f,
indent=2)`, the write used by both `save_evaluation_report` and
`GroundTruthManager.save_ground_truth`.  The runtime semantics modelled:
opening with mode `"w"` truncates the destination before anything is
written (so `oldContent` is destroyed unconditionally), `json.dump`
streams the serialised document as a sequence of chunks appended in order,
an injected failure after `k` chunks (`failAfter = some k < length`)
aborts the dump there and re-raises, and the `with` block closes the
handle on both paths.  The file content is kept as the list of chunks
written. -/
structure WriteOutcome where
  content : List String
  raised : Bool
  handleClosed : Bool
deriving DecidableEq

/-- The shared write path of `save_evaluation_report` and
`save_ground_truth` under the model described at `WriteOutcome`. -/
def save_file_write (oldContent : List String) (chunks : List String)
    (failAfter : Option ℕ) : WriteOutcome :=
  match failAfter with
  | none => { content := chunks, raised := false, handleClosed := true }
  | some k =>
      if k < chunks.length then
        { content := chunks.take k, raised := true, handleClosed := true }
      else
        { content := chunks, raised := false, handleClosed := true }

/-! ### Extractors and concrete scenarios used by the theorems below -/

/-- The snapshot inside a `calculate_metrics` result, when present. -/
def theSnapshot : Except SkError MetricsResult → Option MetricsSnapshot
  | Except.ok (MetricsResult.snapshot m) => some m
  | _ => none

/-- The analysis dict inside an `analyze_errors` result, when present. -/
def theAnalysis : ErrorsResult → Option ErrorAnalysis
  | ErrorsResult.result r => some r
  | _ => none

/-- Sum of the diagonal cells of a (row-major) matrix. -/
def diagSum (cm : List (List ℕ)) : ℕ :=
  (cm.enum.map (fun e => e.2.getD e.1 0)).sum

/-- The roster of the spec's concrete scenario. -/
def scenarioRoster : List String :=
  ["Finance", "Legal", "HR", "Sales", "Product", "Other"]

/-- `add_prediction` with neither latency nor confidence. -/
def addSimple (s : EvaluatorState) (p a : String) : EvaluatorState :=
  add_prediction s p a none none

/-- The spec's concrete scenario: predictions
[Finance, Legal, HR, Sales, Other] against actuals
[Finance, Legal, Finance, Sales, Product]. -/
def scenarioState : EvaluatorState :=
  addSimple (addSimple (addSimple (addSimple (addSimple
    (mkEvaluator scenarioRoster)
    "Finance" "Finance") "Legal" "Legal") "HR" "Finance")
    "Sales" "Sales") "Other" "Product"

/-- A session with eleven distinct mismatch patterns (every prediction
wrong, all pattern strings different). -/
def elevenState : EvaluatorState :=
  (List.range 11).foldl
    (fun st i => addSimple st ("p" ++ toString i) ("a" ++ toString i))
    (mkEvaluator [])

/-- A session whose first record carries latency `0.0` (dropped by the
truthiness test) and whose second carries latency `2.5`. -/
def misalignState : EvaluatorState :=
  add_prediction
    (add_prediction (mkEvaluator ["A"]) "x" "y" (some 0) none)
    "u" "v" (some (5 / 2)) none


/-- A caller-bug state: `predictions` empty while `ground_truth` has one
entry, so the sequence lengths differ (reachable only by mutating the
fields directly, as the claims quantify over arbitrary sequences). -/
def lenMismatchState : EvaluatorState :=
  EvaluatorState.mk ["A", "B"] [] ["Finance"] [] []

/-- A non-empty-latency session: two records with latencies 1/2 and 1/4. -/
def timesState : EvaluatorState :=
  add_prediction
    (add_prediction (mkEvaluator ["A"]) "x" "x" (some (1 / 2)) none)
    "y" "y" (some (1 / 4)) none

/-- Counterexample state for the macro-average claim: roster
["Finance", "Legal"], one correct Finance prediction; "Legal" never occurs
in the session. -/
def c3State : EvaluatorState :=
  addSimple (mkEvaluator ["Finance", "Legal"]) "Finance" "Finance"

/-! ### Counting lemmas used for the confusion-matrix invariants -/

/-- Indicator sum over a list not containing the probed element is 0. -/
theorem sum_indicator_zero (x : String) :
    ∀ cats : List String, x ∉ cats →
      (cats.map (fun c => if x == c then (1 : ℕ) else 0)).sum = 0
  | [], _ => rfl
  | c :: cs, h => by
    have hxc : x ≠ c := fun he => h (he ▸ List.mem_cons_self c cs)
    have hcs : x ∉ cs := fun hm => h (List.mem_cons_of_mem c hm)
    rw [List.map_cons, List.sum_cons, if_neg (by simpa using hxc),
      sum_indicator_zero x cs hcs]

/-- Indicator sum over a duplicate-free list containing the probed element
is exactly 1. -/
theorem sum_indicator_one (x : String) :
    ∀ cats : List String, cats.Nodup → x ∈ cats →
      (cats.map (fun c => if x == c then (1 : ℕ) else 0)).sum = 1
  | [], _, hx => absurd hx (List.not_mem_nil x)
  | c :: cs, hnd, hx => by
    rw [List.map_cons, List.sum_cons]
    rcases List.mem_cons.mp hx with he | hm
    · have hcs : x ∉ cs := he ▸ (List.nodup_cons.mp hnd).1
      rw [if_pos (by simpa using he), sum_indicator_zero x cs hcs]
    · have hxc : x ≠ c := fun he => ((List.nodup_cons.mp hnd).1 (he ▸ hm)).elim
      rw [if_neg (by simpa using hxc),
        sum_indicator_one x cs (List.nodup_cons.mp hnd).2 hm]

/-- Partitioning a `countP` along the value of a key that always falls in a
duplicate-free list of buckets. -/
theorem countP_partition {β : Type} (key : β → String) (q : β → Bool) :
    ∀ (recs : List β) (cats : List String), cats.Nodup →
      (∀ r ∈ recs, key r ∈ cats) →
      (cats.map (fun c => recs.countP (fun r => q r && (key r == c)))).sum
        = recs.countP q
  | [], cats, _, _ => by simp
  | r :: rest, cats, hnd, hmem => by
    have hr : key r ∈ cats := hmem r (List.mem_cons_self r rest)
    have hrest : ∀ x ∈ rest, key x ∈ cats :=
      fun x hx => hmem x (List.mem_cons_of_mem r hx)
    simp only [List.countP_cons]
    rw [List.sum_map_add]
    rw [countP_partition key q rest cats hnd hrest]
    congr 1
    cases hq : q r with
    | false => simp [hq]
    | true => simpa [hq] using sum_indicator_one (key r) cats hnd hr

/-- Counting a predicate on the first components of a zip counts it on the
first list, when the second list is at least as long. -/
theorem countP_zip_fst (acts preds : List String)
    (hle : acts.length ≤ preds.length) (p : String → Bool) :
    (acts.zip preds).countP (fun r => p r.1) = acts.countP p := by
  have hmap := List.map_fst_zip acts preds hle
  calc (acts.zip preds).countP (fun r => p r.1)
      = ((acts.zip preds).map Prod.fst).countP p := by
        rw [List.countP_map]; rfl
    _ = acts.countP p := by rw [hmap]

/-- Sum of one confusion-matrix row: the number of records whose actual
label is that row's category (predicted labels must stay in the roster). -/
theorem confusionMatrix_row_sum (acts preds cats : List String)
    (hnd : cats.Nodup) (hle : acts.length ≤ preds.length)
    (hpreds : ∀ p ∈ preds, p ∈ cats) (a : String) :
    (cats.map (fun p =>
        (acts.zip preds).countP (fun r => r.1 == a && r.2 == p))).sum
      = acts.countP (fun x => x == a) := by
  have hz2 : ∀ r ∈ acts.zip preds, r.2 ∈ cats :=
    fun r hr => hpreds _ (List.of_mem_zip hr).2
  rw [countP_partition (fun r => r.2) (fun r => r.1 == a)
    (acts.zip preds) cats hnd hz2]
  exact countP_zip_fst acts preds hle (fun x => x == a)

/-- Sum of all confusion-matrix cells: the number of records, when every
label of every record lies in the (duplicate-free) roster. -/
theorem confusionMatrix_total_sum (acts preds cats : List String)
    (hnd : cats.Nodup) (hlen : acts.length = preds.length)
    (hacts : ∀ a ∈ acts, a ∈ cats) (hpreds : ∀ p ∈ preds, p ∈ cats) :
    ((confusionMatrixOf acts preds cats).map List.sum).sum = acts.length := by
  have hz1 : ∀ r ∈ acts.zip preds, r.1 ∈ cats :=
    fun r hr => hacts _ (List.of_mem_zip hr).1
  unfold confusionMatrixOf
  rw [List.map_map]
  have hrow : ∀ a ∈ cats,
      (List.sum ∘ fun a => cats.map (fun p =>
        (acts.zip preds).countP (fun r => r.1 == a && r.2 == p))) a
        = (acts.zip preds).countP (fun r => r.1 == a) := by
    intro a _
    show (cats.map (fun p =>
      (acts.zip preds).countP (fun r => r.1 == a && r.2 == p))).sum = _
    rw [countP_partition (fun r => r.2) (fun r => r.1 == a)
      (acts.zip preds) cats hnd (fun r hr => hpreds _ (List.of_mem_zip hr).2)]
  rw [List.map_congr_left hrow]
  have htot := countP_partition (fun r => r.1) (fun _ => true)
    (acts.zip preds) cats hnd hz1
  simp only [Bool.true_and] at htot
  rw [htot, List.countP_true, List.length_zip, hlen, Nat.min_self]

/-! ### `firstSeen` and the pattern tally -/

/-- Membership in the first-seen deduplication. -/
theorem mem_firstSeen {x : String} : ∀ {l : List String},
    x ∈ firstSeen l ↔ x ∈ l
  | [] => Iff.rfl
  | k :: rest => by
    simp only [firstSeen, List.mem_cons, List.mem_filter,
      decide_eq_true_eq]
    by_cases hxk : x = k
    · simp [hxk]
    · simp [hxk, mem_firstSeen (l := rest)]

/-- The first-seen deduplication is duplicate-free. -/
theorem nodup_firstSeen : ∀ l : List String, (firstSeen l).Nodup
  | [] => List.nodup_nil
  | k :: rest => by
    refine List.nodup_cons.mpr ⟨?_, (nodup_firstSeen rest).filter _⟩
    intro hk
    have h2 := (List.mem_filter.mp hk).2
    simp at h2

/-- Appending a fresh key appends it to the deduplication. -/
theorem firstSeen_append_not_mem : ∀ (l : List String) (k : String), k ∉ l →
    firstSeen (l ++ [k]) = firstSeen l ++ [k]
  | [], k, _ => by simp [firstSeen]
  | a :: l, k, hk => by
    have hka : k ≠ a := fun h => hk (h ▸ List.mem_cons_self a l)
    have hkl : k ∉ l := fun h => hk (List.mem_cons_of_mem a h)
    show a :: (firstSeen (l ++ [k])).filter (fun x => x ≠ a)
      = a :: (firstSeen l).filter (fun x => x ≠ a) ++ [k]
    rw [firstSeen_append_not_mem l k hkl, List.filter_append]
    simp [hka]

/-- Appending an already-seen key does not change the deduplication. -/
theorem firstSeen_append_mem : ∀ (l : List String) (k : String), k ∈ l →
    firstSeen (l ++ [k]) = firstSeen l
  | [], k, hk => absurd hk (List.not_mem_nil k)
  | a :: l, k, hk => by
    by_cases hkl : k ∈ l
    · show a :: (firstSeen (l ++ [k])).filter (fun x => x ≠ a)
        = a :: (firstSeen l).filter (fun x => x ≠ a)
      rw [firstSeen_append_mem l k hkl]
    · have hka : k = a := by
        rcases List.mem_cons.mp hk with h | h
        · exact h
        · exact absurd h hkl
      show a :: (firstSeen (l ++ [k])).filter (fun x => x ≠ a)
        = a :: (firstSeen l).filter (fun x => x ≠ a)
      rw [firstSeen_append_not_mem l k hkl, List.filter_append]
      simp [hka]

/-- Bumping a key that is not yet in the dict appends a fresh entry. -/
theorem bump_not_mem : ∀ (l : List (String × ℕ)) (k : String),
    k ∉ l.map Prod.fst → bump l k = l ++ [(k, 1)]
  | [], _, _ => rfl
  | (k', n) :: rest, k, hk => by
    have hkk : k' ≠ k := by
      intro h
      exact hk (by simp [h])
    have hrest : k ∉ rest.map Prod.fst := by
      intro h
      exact hk (by simp [h])
    show (if k' = k then (k', n + 1) :: rest else (k', n) :: bump rest k)
      = (k', n) :: rest ++ [(k, 1)]
    rw [if_neg hkk, bump_not_mem rest k hrest]
    rfl

/-- Bumping a key present in a duplicate-free dict increments exactly that
entry. -/
theorem bump_mem_nodup : ∀ (l : List (String × ℕ)) (k : String),
    (l.map Prod.fst).Nodup → k ∈ l.map Prod.fst →
    bump l k = l.map (fun p => if p.1 = k then (p.1, p.2 + 1) else p)
  | [], k, _, hk => absurd hk (List.not_mem_nil k)
  | (k', n) :: rest, k, hnd, hk => by
    rw [List.map_cons] at hnd hk
    have hnd' := List.nodup_cons.mp hnd
    by_cases hkk : k' = k
    · have hrest : ∀ p ∈ rest, p.1 ≠ k := by
        intro p hp h
        apply hnd'.1
        have hm := List.mem_map_of_mem Prod.fst hp
        rw [hkk, ← h]
        exact hm
      have hmap : rest.map (fun p => if p.1 = k then (p.1, p.2 + 1) else p)
          = rest.map (fun p => p) :=
        List.map_congr_left (fun p hp => if_neg (hrest p hp))
      show (if k' = k then (k', n + 1) :: rest else (k', n) :: bump rest k)
        = _
      rw [if_pos hkk, List.map_cons, hmap, List.map_id']
      simp [hkk]
    · have hkrest : k ∈ rest.map Prod.fst := by
        rcases List.mem_cons.mp hk with h | h
        · exact absurd h.symm hkk
        · exact h
      show (if k' = k then (k', n + 1) :: rest else (k', n) :: bump rest k)
        = _
      rw [if_neg hkk, bump_mem_nodup rest k hnd'.2 hkrest, List.map_cons,
        if_neg hkk]

/-- Running the `error_patterns` loop over a list of keys produces exactly
the first-seen keys, each paired with its total occurrence count. -/
theorem foldl_bump_eq (keys : List String) :
    keys.foldl bump [] =
      (firstSeen keys).map (fun k => (k, keys.count k)) := by
  induction keys using List.reverseRecOn with
  | nil => rfl
  | append_singleton l k ih =>
    rw [List.foldl_append, List.foldl_cons, List.foldl_nil, ih]
    have hkeys : ((firstSeen l).map (fun k => (k, l.count k))).map Prod.fst
        = firstSeen l := by
      rw [List.map_map]
      exact List.map_id' _
    by_cases hk : k ∈ l
    · have hnd : (((firstSeen l).map
          (fun k => (k, l.count k))).map Prod.fst).Nodup := by
        rw [hkeys]; exact nodup_firstSeen l
      have hmem : k ∈ ((firstSeen l).map
          (fun k => (k, l.count k))).map Prod.fst := by
        rw [hkeys]; exact mem_firstSeen.mpr hk
      rw [bump_mem_nodup _ k hnd hmem, firstSeen_append_mem l k hk,
        List.map_map]
      apply List.map_congr_left
      intro x _
      by_cases hxk : x = k
      · subst hxk
        have h1 : List.count x (l ++ [x]) = List.count x l + 1 := by
          rw [List.count_append]
          simp
        simp [h1]
      · have h0 : List.count x [k] = 0 :=
          List.count_eq_zero.mpr (by simp [hxk])
        have h1 : List.count x (l ++ [k]) = List.count x l := by
          rw [List.count_append, h0]
          omega
        simp only [Function.comp_apply, if_neg hxk, h1]
    · have hnot : k ∉ ((firstSeen l).map
          (fun k => (k, l.count k))).map Prod.fst := by
        rw [hkeys]
        exact fun h => hk (mem_firstSeen.mp h)
      rw [bump_not_mem _ k hnot, firstSeen_append_not_mem l k hk,
        List.map_append]
      congr 1
      · apply List.map_congr_left
        intro x hx
        have hxk : x ≠ k := fun h => hk (h ▸ mem_firstSeen.mp hx)
        have h0 : List.count x [k] = 0 :=
          List.count_eq_zero.mpr (by simp [hxk])
        rw [List.count_append, h0]
        simp
      · have h1 : List.count k (l ++ [k]) = 1 := by
          rw [List.count_append, List.count_eq_zero_of_not_mem hk]
          simp
        simp [h1]
        exact List.count_eq_zero_of_not_mem hk

/-- `tally` in terms of first-seen keys and occurrence counts. -/
theorem tally_eq (errs : List DetailedError) :
    tally errs = (firstSeen (errs.map patternKey)).map
      (fun k => (k, (errs.map patternKey).count k)) := by
  have h : tally errs = (errs.map patternKey).foldl bump [] := by
    rw [List.foldl_map]
    rfl
  rw [h, foldl_bump_eq]

/-- Characterisation of the mismatch list: an error entry is recorded for
index `i` exactly when both sequences have an entry at `i`, the two labels
disagree, and the stored latency is the (possibly missing) entry of
`processing_times` at `i`. -/
theorem mem_errorsOf {s : EvaluatorState} {e : DetailedError} :
    e ∈ errorsOf s ↔
      s.predictions[e.index]? = some e.predicted ∧
      s.ground_truth[e.index]? = some e.actual ∧
      e.predicted ≠ e.actual ∧
      e.processing_time = s.processing_times[e.index]? := by
  unfold errorsOf
  rw [List.mem_filterMap]
  constructor
  · rintro ⟨⟨i, p, a⟩, hmem, hf⟩
    rw [List.mem_enum_iff_getElem?] at hmem
    have hz := List.getElem?_zip_eq_some.mp hmem
    by_cases hpa : p ≠ a
    · rw [if_pos hpa] at hf
      cases hf
      exact ⟨hz.1, hz.2, hpa, rfl⟩
    · rw [if_neg hpa] at hf
      cases hf
  · rintro ⟨h1, h2, h3, h4⟩
    refine ⟨(e.index, (e.predicted, e.actual)), ?_, ?_⟩
    · rw [List.mem_enum_iff_getElem?]
      exact List.getElem?_zip_eq_some.mpr ⟨h1, h2⟩
    · rw [if_pos h3]
      cases e
      simp only at h4 ⊢
      rw [h4]

/-! ### Shared unfolding lemma for `calculate_metrics` -/

/-- On non-empty, equal-length inputs `calculate_metrics` returns the
snapshot. -/
theorem calculate_metrics_ok (now : String) (s : EvaluatorState)
    (h1 : s.predictions ≠ []) (h2 : s.ground_truth ≠ [])
    (hlen : s.ground_truth.length = s.predictions.length) :
    calculate_metrics now s
      = Except.ok (MetricsResult.snapshot (snapshotOf now s)) := by
  unfold calculate_metrics
  rw [if_neg (not_or.mpr ⟨h1, h2⟩), if_neg (by simp [hlen])]

/-! ### Claim C2 -/

/-- Claim C2, counterexample: on empty prediction/actual sequences
`calculate_metrics` RETURNS the error-marker dict — a normal, non-raising
result — instead of raising an `EmptyInputError` (no such exception exists
in the source). -/
theorem c2_counterexample :
    calculate_metrics "2024-01-01T00:00:00" (mkEvaluator scenarioRoster)
      = Except.ok (MetricsResult.errorDict "No predictions to evaluate") :=
  rfl

/-- Claim C2 (amended): for empty prediction/actual sequences the metrics
computation returns the marker dict with message "No predictions to
evaluate" — a non-raising result that is not a zero-valued snapshot. -/
theorem c2_amended (now : String) (s : EvaluatorState)
    (h : s.predictions = [] ∨ s.ground_truth = []) :
    calculate_metrics now s
      = Except.ok (MetricsResult.errorDict "No predictions to evaluate") := by
  unfold calculate_metrics
  rw [if_pos h]

/-- Witness for `c2_amended` at the freshly constructed evaluator. -/
theorem c2_amended_witness :
    ((mkEvaluator ["A"]).predictions = [] ∨
      (mkEvaluator ["A"]).ground_truth = []) ∧
    calculate_metrics "t" (mkEvaluator ["A"])
      = Except.ok (MetricsResult.errorDict "No predictions to evaluate") :=
  ⟨Or.inl rfl, c2_amended "t" (mkEvaluator ["A"]) (Or.inl rfl)⟩

/-! ### Claim C5 -/

/-- Claim C5, counterexample: with `predictions = []` and
`ground_truth = ["Finance"]` the lengths differ (0 vs 1), yet
`calculate_metrics` raises nothing: the empty-input guard fires first and
the error-marker dict is returned. -/
theorem c5_counterexample :
    lenMismatchState.predictions.length ≠
      lenMismatchState.ground_truth.length ∧
    calculate_metrics "t" lenMismatchState
      = Except.ok (MetricsResult.errorDict "No predictions to evaluate") :=
  ⟨by decide, rfl⟩

/-- Claim C5 (amended): when both sequences are non-empty and their lengths
differ, the metrics computation raises immediately -- sklearn's
`ValueError` out of `accuracy_score`, the source defining no
`LengthMismatchError` of its own -- and the longer sequence is never
silently truncated; when either sequence is empty, the empty-input marker
is returned instead of any length error. -/
theorem c5_amended (now : String) (s : EvaluatorState)
    (h1 : s.predictions ≠ []) (h2 : s.ground_truth ≠ [])
    (h3 : s.ground_truth.length ≠ s.predictions.length) :
    calculate_metrics now s = Except.error (SkError.valueError
      "Found input variables with inconsistent numbers of samples") := by
  unfold calculate_metrics
  rw [if_neg (not_or.mpr ⟨h1, h2⟩), if_pos h3]

/-- Witness for `c5_amended`: one prediction against two ground-truth
labels. -/
theorem c5_amended_witness :
    (EvaluatorState.mk ["A"] ["a"] ["b", "c"] [] []).predictions ≠ [] ∧
    (EvaluatorState.mk ["A"] ["a"] ["b", "c"] [] []).ground_truth ≠ [] ∧
    (EvaluatorState.mk ["A"] ["a"] ["b", "c"] [] []).ground_truth.length ≠
      (EvaluatorState.mk ["A"] ["a"] ["b", "c"] [] []).predictions.length ∧
    calculate_metrics "t" (EvaluatorState.mk ["A"] ["a"] ["b", "c"] [] [])
      = Except.error (SkError.valueError
        "Found input variables with inconsistent numbers of samples") :=
  ⟨by decide, by decide, by decide,
    c5_amended "t" (EvaluatorState.mk ["A"] ["a"] ["b", "c"] [] [])
      (by decide) (by decide) (by decide)⟩

/-! ### Claim C9 -/

/-- Claim C9, counterexample: a failure injected after the first of two
chunks leaves the destination holding a strict prefix of the new content —
neither the prior content (destroyed by the `"w"`-mode truncation) nor the
complete new content. -/
theorem c9_counterexample :
    save_file_write ["old-report"] ["first-half", "second-half"] (some 1)
      = WriteOutcome.mk ["first-half"] true true ∧
    (["first-half"] : List String) ≠ ["old-report"] ∧
    (["first-half"] : List String) ≠ ["first-half", "second-half"] :=
  ⟨rfl, by decide, by decide⟩

/-- Claim C9 (amended): the write is a scoped resource — the handle is
closed whether or not the dump fails — but it is not atomic: opening with
mode `"w"` truncates the prior content unconditionally, and a failure
after `k` chunks leaves exactly the first `k` chunks (a prefix of the new
content) in the destination; only a failure-free dump leaves the complete
new content. -/
theorem c9_amended (oldContent chunks : List String) (k : ℕ)
    (hk : k < chunks.length) :
    save_file_write oldContent chunks (some k)
      = WriteOutcome.mk (chunks.take k) true true ∧
    chunks.take k ++ chunks.drop k = chunks ∧
    save_file_write oldContent chunks none
      = WriteOutcome.mk chunks false true := by
  refine ⟨?_, List.take_append_drop k chunks, rfl⟩
  simp [save_file_write, hk]

/-- Witness for `c9_amended` at a two-chunk dump failing after one chunk. -/
theorem c9_amended_witness :
    1 < (["first-half", "second-half"] : List String).length ∧
    save_file_write ["old-report"] ["first-half", "second-half"] (some 1)
      = WriteOutcome.mk ["first-half"] true true ∧
    (["first-half", "second-half"] : List String).take 1
      ++ (["first-half", "second-half"] : List String).drop 1
      = ["first-half", "second-half"] :=
  ⟨by decide,
    (c9_amended ["old-report"] ["first-half", "second-half"] 1 (by decide)).1,
    (c9_amended ["old-report"] ["first-half", "second-half"] 1 (by decide)).2.1⟩

/-! ### Claim C10 -/

/-- Claim C10 (confirmed): a latency of exactly `0.0` is dropped by the
truthiness guard, leaving a state identical to passing no latency at all —
hence indistinguishable in every derived statistic — and the latency list
can fall out of index alignment with the prediction list: in
`misalignState` the single stored latency `5/2` (which belongs to the
second record) is attributed by `analyze_errors` to the mismatch at index
0. -/
theorem c10_zero_latency_dropped :
    (∀ (s : EvaluatorState) (p a : String) (conf : Option ℚ),
      add_prediction s p a (some 0) conf = add_prediction s p a none conf) ∧
    misalignState.processing_times = [5 / 2] ∧
    misalignState.predictions.length = 2 ∧
    (errorsOf misalignState).map (fun e => (e.index, e.processing_time))
      = [(0, some (5 / 2)), (1, none)] := by
  refine ⟨?_, ?_, rfl, ?_⟩
  · intro s p a conf
    unfold add_prediction truthyFloat
    simp
  · with_unfolding_all decide
  · with_unfolding_all decide

/-! ### Claim C6 -/

/-- Claim C6, counterexample: two calls on the same unmutated record lists
do NOT yield identical result dicts — the `timestamp` field holds each
call's clock reading, so calls at different instants differ. -/
theorem c6_counterexample :
    ((theSnapshot (calculate_metrics "2024-01-01T00:00:00" scenarioState)).map
      (fun m => m.timestamp) = some "2024-01-01T00:00:00") ∧
    ((theSnapshot (calculate_metrics "2024-01-01T00:00:01" scenarioState)).map
      (fun m => m.timestamp) = some "2024-01-01T00:00:01") ∧
    calculate_metrics "2024-01-01T00:00:00" scenarioState
      ≠ calculate_metrics "2024-01-01T00:00:01" scenarioState := by
  have hA : (theSnapshot
      (calculate_metrics "2024-01-01T00:00:00" scenarioState)).map
      (fun m => m.timestamp) = some "2024-01-01T00:00:00" := by
    with_unfolding_all decide
  have hB : (theSnapshot
      (calculate_metrics "2024-01-01T00:00:01" scenarioState)).map
      (fun m => m.timestamp) = some "2024-01-01T00:00:01" := by
    with_unfolding_all decide
  refine ⟨hA, hB, fun h => ?_⟩
  have h2 := congrArg
    (fun r => (theSnapshot r).map (fun m => m.timestamp)) h
  dsimp only at h2
  rw [hA, hB] at h2
  exact absurd (Option.some.inj h2) (by decide)

/-- Claim C6 (amended): apart from the `timestamp` field (which records
the call's clock reading), the snapshot is a pure function of the record
lists — two calls on the same unmutated state at any two instants agree on
every other field. -/
theorem c6_amended (t1 t2 : String) (s : EvaluatorState) :
    scrubTime (calculate_metrics t1 s) = scrubTime (calculate_metrics t2 s) := by
  unfold calculate_metrics
  split_ifs <;> rfl

/-! ### Claim C8 -/

/-- Claim C8, counterexample: for an empty latency sequence the benchmark
dict contains NO `processing_time` section at all — there is no
`throughput_per_second = 0` entry to observe. -/
theorem c8_counterexample :
    (performance_benchmarks (mkEvaluator ["A"])).processing_time = none :=
  rfl

/-- Claim C8 (amended): when latency records exist, the profiler reports
`throughput = 1/mean` for a positive mean and `0` for a zero mean (never a
division error); when no latency records exist, the whole latency section
is omitted rather than reported with throughput 0. -/
theorem c8_amended (s : EvaluatorState)
    (hnn : ∀ t ∈ s.processing_times, (0 : ℚ) ≤ t) :
    (s.processing_times = [] →
      (performance_benchmarks s).processing_time = none) ∧
    (s.processing_times ≠ [] →
      (performance_benchmarks s).processing_time
        = some (timeStatsOf s.processing_times) ∧
      (0 < meanQ s.processing_times →
        (timeStatsOf s.processing_times).throughput_per_second
          = 1 / meanQ s.processing_times) ∧
      (meanQ s.processing_times = 0 →
        (timeStatsOf s.processing_times).throughput_per_second = 0)) := by
  refine ⟨fun h => by simp [performance_benchmarks, h], fun h => ⟨?_, ?_, ?_⟩⟩
  · simp [performance_benchmarks, h]
  · intro hm
    simp [timeStatsOf, hm]
  · intro hm
    simp [timeStatsOf, hm]

/-- Witness for `c8_amended` at latencies 1/2 and 1/4 (mean 3/8). -/
theorem c8_amended_witness :
    (∀ t ∈ timesState.processing_times, (0 : ℚ) ≤ t) ∧
    (performance_benchmarks timesState).processing_time
      = some (timeStatsOf timesState.processing_times) ∧
    (timeStatsOf timesState.processing_times).throughput_per_second
      = 1 / meanQ timesState.processing_times := by
  have hnn : ∀ t ∈ timesState.processing_times, (0 : ℚ) ≤ t := by
    with_unfolding_all decide
  have h := (c8_amended timesState hnn).2 (by with_unfolding_all decide)
  exact ⟨hnn, h.1, h.2.1 (by with_unfolding_all decide)⟩

/-! ### Claim C1 -/

/-- Claim C1, counterexample: the error-pattern mapping returned for the
spec's concrete scenario contains NEITHER of the claimed keys
"Finance→HR" and "Product→Other": the separator the source builds is the
mis-decoded arrow with surrounding spaces, not a bare arrow. -/
theorem c1_counterexample :
    ((theAnalysis (analyze_errors scenarioState)).map
      (fun r => r.error_patterns.lookup "Finance→HR") = some none) ∧
    ((theAnalysis (analyze_errors scenarioState)).map
      (fun r => r.error_patterns.lookup "Product→Other") = some none) := by
  with_unfolding_all decide

/-- On non-empty inputs `analyze_errors` returns the analysis record. -/
theorem analyze_errors_result (s : EvaluatorState)
    (h : ¬(s.predictions = [] ∨ s.ground_truth = [])) :
    analyze_errors s = ErrorsResult.result
      { total_errors := (errorsOf s).length
        error_rate := ((errorsOf s).length : ℚ) / (s.predictions.length : ℚ)
        error_patterns := ((tally (errorsOf s)).insertionSort patOrder).take 10
        detailed_errors := (errorsOf s).take 20 } := by
  unfold analyze_errors
  rw [if_neg h]

/-- Accuracy of the concrete scenario (helper for the C1 theorem). -/
theorem c1_aux_accuracy :
    (theSnapshot (calculate_metrics "t" scenarioState)).map
      (fun m => m.accuracy) = some (3 / 5) := by
  rw [calculate_metrics_ok "t" scenarioState (by decide) (by decide)
    (by decide)]
  with_unfolding_all decide

/-- Diagonal hits of the concrete scenario (helper for the C1 theorem). -/
theorem c1_aux_diag :
    (theSnapshot (calculate_metrics "t" scenarioState)).map
      (fun m => diagSum m.confusion_matrix) = some 3 := by
  rw [calculate_metrics_ok "t" scenarioState (by decide) (by decide)
    (by decide)]
  with_unfolding_all decide

/-- Error rate of the concrete scenario (helper for the C1 theorem). -/
theorem c1_aux_rate :
    (theAnalysis (analyze_errors scenarioState)).map
      (fun r => r.error_rate) = some (2 / 5) := by
  rw [analyze_errors_result scenarioState (by decide)]
  with_unfolding_all decide

/-- Error patterns of the concrete scenario (helper for the C1 theorem). -/
theorem c1_aux_patterns :
    (theAnalysis (analyze_errors scenarioState)).map
      (fun r => r.error_patterns)
      = some [("Finance â†’ HR", 1), ("Product â†’ Other", 1)] := by
  rw [analyze_errors_result scenarioState (by decide)]
  exact congrArg some (by with_unfolding_all decide :
    ((tally (errorsOf scenarioState)).insertionSort patOrder).take 10
      = [("Finance â†’ HR", 1), ("Product â†’ Other", 1)])

/-- Claim C1 (amended): the concrete scenario yields accuracy 3/5, exactly
3 diagonal confusion-matrix hits, error rate 2/5, and the error-pattern
mapping with the two source-format keys
"Finance â†’ HR" and "Product â†’ Other"
(actual, mis-decoded arrow, predicted), each with count 1. -/
theorem c1_amended :
    ((theSnapshot (calculate_metrics "t" scenarioState)).map
      (fun m => m.accuracy) = some (3 / 5)) ∧
    ((theSnapshot (calculate_metrics "t" scenarioState)).map
      (fun m => diagSum m.confusion_matrix) = some 3) ∧
    ((theAnalysis (analyze_errors scenarioState)).map
      (fun r => r.error_rate) = some (2 / 5)) ∧
    ((theAnalysis (analyze_errors scenarioState)).map
      (fun r => r.error_patterns)
      = some [("Finance â†’ HR", 1), ("Product â†’ Other", 1)]) :=
  ⟨c1_aux_accuracy, c1_aux_diag, c1_aux_rate, c1_aux_patterns⟩

/-! ### Claim C3 -/

/-- Claim C3, counterexample: for `c3State` (roster ["Finance", "Legal"],
one correct Finance prediction) the reported macro precision is 1 — the
mean over the labels present in the session only — while the unweighted
mean over every roster category (Legal contributing a 0-valued row) would
be 1/2.  The source computes its macro averages without `labels=
self.categories`, so unseen roster categories contribute nothing. -/
theorem c3_counterexample :
    ((theSnapshot (calculate_metrics "t" c3State)).map
      (fun m => m.m_avg.precision) = some 1) ∧
    ((theSnapshot (calculate_metrics "t" c3State)).map
      (fun m => ((m.per_class_metrics.map (fun p => p.2.precision)).sum /
        (m.per_class_metrics.length : ℚ))) = some (1 / 2)) := by
  rw [calculate_metrics_ok "t" c3State (by decide) (by decide) (by decide)]
  constructor
  · with_unfolding_all decide
  · with_unfolding_all decide

/-- Claim C3 (amended): the macro-averaged precision, recall and f1 equal
the unweighted mean of the per-class values over the distinct categories
present in the session (those occurring among the actuals or the
predictions, each counted once), not over the full caller-supplied roster;
roster categories unseen in the session contribute nothing to the mean. -/
theorem c3_amended (now : String) (s : EvaluatorState)
    (h1 : s.predictions ≠ []) (h2 : s.ground_truth ≠ [])
    (hlen : s.ground_truth.length = s.predictions.length) :
    ∃ m, calculate_metrics now s = Except.ok (MetricsResult.snapshot m) ∧
      (presentLabels s.ground_truth s.predictions).Nodup ∧
      (∀ c, c ∈ presentLabels s.ground_truth s.predictions ↔
        c ∈ s.ground_truth ∨ c ∈ s.predictions) ∧
      m.m_avg.precision
        = ((presentLabels s.ground_truth s.predictions).map
            (precisionOf s.ground_truth s.predictions)).sum /
          ((presentLabels s.ground_truth s.predictions).length : ℚ) ∧
      m.m_avg.recall_score
        = ((presentLabels s.ground_truth s.predictions).map
            (recallOf s.ground_truth s.predictions)).sum /
          ((presentLabels s.ground_truth s.predictions).length : ℚ) ∧
      m.m_avg.f1_score
        = ((presentLabels s.ground_truth s.predictions).map
            (f1Of s.ground_truth s.predictions)).sum /
          ((presentLabels s.ground_truth s.predictions).length : ℚ) := by
  refine ⟨snapshotOf now s, calculate_metrics_ok now s h1 h2 hlen,
    nodup_firstSeen _, ?_, rfl, rfl, rfl⟩
  intro c
  rw [presentLabels, mem_firstSeen, List.mem_append]

/-- Witness for `c3_amended` at the concrete scenario. -/
theorem c3_amended_witness :
    ∃ m, calculate_metrics "t" scenarioState
        = Except.ok (MetricsResult.snapshot m) ∧
      m.m_avg.precision
        = ((presentLabels scenarioState.ground_truth
              scenarioState.predictions).map
            (precisionOf scenarioState.ground_truth
              scenarioState.predictions)).sum /
          ((presentLabels scenarioState.ground_truth
              scenarioState.predictions).length : ℚ) := by
  obtain ⟨m, hm, _, _, hp, _, _⟩ :=
    c3_amended "t" scenarioState (by decide) (by decide) (by decide)
  exact ⟨m, hm, hp⟩

/-! ### Claim C4 -/

/-- Claim C4 (confirmed, with the data-model hypotheses made explicit):
for non-empty equal-length sequences whose labels all lie in the
duplicate-free roster, the confusion matrix's cells sum to the sequence
length and each row sums to the number of records whose actual label is
that row's category. -/
theorem c4_confusion_sums (now : String) (s : EvaluatorState)
    (h1 : s.predictions ≠ [])
    (hlen : s.ground_truth.length = s.predictions.length)
    (hacts : ∀ a ∈ s.ground_truth, a ∈ s.categories)
    (hpreds : ∀ p ∈ s.predictions, p ∈ s.categories)
    (hnd : s.categories.Nodup) :
    ∃ m, calculate_metrics now s = Except.ok (MetricsResult.snapshot m) ∧
      (m.confusion_matrix.map List.sum).sum = s.predictions.length ∧
      ∀ i, i < s.categories.length →
        (m.confusion_matrix.getD i []).sum
          = s.ground_truth.countP
              (fun a => a == s.categories.getD i "") := by
  have h2 : s.ground_truth ≠ [] := by
    intro h
    apply h1
    rw [h] at hlen
    exact List.eq_nil_of_length_eq_zero hlen.symm
  refine ⟨snapshotOf now s, calculate_metrics_ok now s h1 h2 hlen, ?_, ?_⟩
  · show ((confusionMatrixOf s.ground_truth s.predictions
      s.categories).map List.sum).sum = _
    rw [confusionMatrix_total_sum s.ground_truth s.predictions s.categories
      hnd hlen hacts hpreds, hlen]
  · intro i hi
    show ((confusionMatrixOf s.ground_truth s.predictions
      s.categories).getD i []).sum = _
    unfold confusionMatrixOf
    rw [List.getD_eq_getElem?_getD, List.getElem?_map,
      List.getElem?_eq_getElem hi]
    show ((s.categories.map (fun p =>
      (s.ground_truth.zip s.predictions).countP
        (fun r => r.1 == s.categories[i] && r.2 == p))).sum) = _
    rw [confusionMatrix_row_sum s.ground_truth s.predictions s.categories
      hnd (le_of_eq hlen) hpreds s.categories[i],
      List.getD_eq_getElem?_getD, List.getElem?_eq_getElem hi]
    rfl

/-- Witness for `c4_confusion_sums` at the concrete scenario. -/
theorem c4_confusion_sums_witness :
    ∃ m, calculate_metrics "t" scenarioState
        = Except.ok (MetricsResult.snapshot m) ∧
      (m.confusion_matrix.map List.sum).sum
        = scenarioState.predictions.length := by
  obtain ⟨m, hm, htot, _⟩ := c4_confusion_sums "t" scenarioState
    (by decide) (by decide) (by decide) (by decide) (by decide)
  exact ⟨m, hm, htot⟩

/-! ### Claim C7 -/

/-- Claim C7 (amended): on non-empty inputs, `analyze_errors` returns
- `error_patterns`: the TOP TEN (not all) actual-to-predicted mismatch
  patterns — the stably sorted tally truncated to 10 entries — sorted
  descending by count, each entry carrying the exact occurrence count of
  its pattern among the mismatches, with the tally keys in first-seen
  order and the stable sort preserving that order on tied counts;
- `detailed_errors`: the first 20 mismatches, where a mismatch entry for
  index `i` exists iff both sequences have entries at `i` that disagree,
  and it carries `processing_times[i]` when that index exists;
- the total error count and the error rate `errors/len(predictions)`. -/
theorem c7_amended (s : EvaluatorState)
    (h1 : s.predictions ≠ []) (h2 : s.ground_truth ≠ []) :
    ∃ r, analyze_errors s = ErrorsResult.result r ∧
      r.error_patterns
        = ((tally (errorsOf s)).insertionSort patOrder).take 10 ∧
      List.Sorted patOrder r.error_patterns ∧
      (∀ p ∈ r.error_patterns,
        p.2 = ((errorsOf s).map patternKey).count p.1 ∧
        p.1 ∈ (errorsOf s).map patternKey) ∧
      r.error_patterns.length
        = min 10 (firstSeen ((errorsOf s).map patternKey)).length ∧
      (tally (errorsOf s)).map Prod.fst
        = firstSeen ((errorsOf s).map patternKey) ∧
      (∀ p q : String × ℕ, p.2 = q.2 →
        List.Sublist [p, q] (tally (errorsOf s)) →
        List.Sublist [p, q] ((tally (errorsOf s)).insertionSort patOrder)) ∧
      r.detailed_errors = (errorsOf s).take 20 ∧
      (∀ e : DetailedError, e ∈ errorsOf s ↔
        (s.predictions[e.index]? = some e.predicted ∧
         s.ground_truth[e.index]? = some e.actual ∧
         e.predicted ≠ e.actual ∧
         e.processing_time = s.processing_times[e.index]?)) ∧
      r.total_errors = (errorsOf s).length ∧
      r.error_rate = ((errorsOf s).length : ℚ) / (s.predictions.length : ℚ)
    := by
  refine ⟨_, analyze_errors_result s (not_or.mpr ⟨h1, h2⟩),
    rfl, ?_, ?_, ?_, ?_, ?_, rfl, fun e => mem_errorsOf, rfl, rfl⟩
  · exact List.Pairwise.sublist (List.take_sublist 10 _)
      (List.sorted_insertionSort patOrder (tally (errorsOf s)))
  · intro p hp
    have hp1 : p ∈ (tally (errorsOf s)).insertionSort patOrder :=
      List.mem_of_mem_take hp
    have hp2 : p ∈ tally (errorsOf s) :=
      (List.perm_insertionSort patOrder _).mem_iff.mp hp1
    rw [tally_eq] at hp2
    obtain ⟨k, hk, hpk⟩ := List.mem_map.mp hp2
    refine ⟨?_, ?_⟩
    · rw [← hpk]
    · rw [← hpk]
      exact mem_firstSeen.mp hk
  · show (((tally (errorsOf s)).insertionSort patOrder).take 10).length = _
    rw [List.length_take, List.length_insertionSort, tally_eq,
      List.length_map]
  · rw [tally_eq, List.map_map]
    exact List.map_id' _
  · intro p q hpq hsub
    exact List.pair_sublist_insertionSort (le_of_eq hpq.symm) hsub

/-- Witness for `c7_amended` at the concrete scenario. -/
theorem c7_amended_witness :
    ∃ r, analyze_errors scenarioState = ErrorsResult.result r ∧
      List.Sorted patOrder r.error_patterns ∧
      r.detailed_errors = (errorsOf scenarioState).take 20 := by
  obtain ⟨r, hr, _, hsort, _, _, _, _, hdet, _, _, _⟩ :=
    c7_amended scenarioState (by decide) (by decide)
  exact ⟨r, hr, hsort, hdet⟩

/-- Claim C7, counterexample: with eleven distinct mismatch patterns the
returned mapping holds only ten entries; the pattern of the eleventh
mismatch occurs once among the errors but is absent from the mapping. -/
theorem c7_counterexample :
    ((theAnalysis (analyze_errors elevenState)).map
      (fun r => r.error_patterns.length) = some 10) ∧
    (firstSeen ((errorsOf elevenState).map patternKey)).length = 11 ∧
    ((theAnalysis (analyze_errors elevenState)).map
      (fun r => r.error_patterns.lookup "a10 â†’ p10") = some none) ∧
    ((errorsOf elevenState).map patternKey).count "a10 â†’ p10" = 1 := by
  rw [analyze_errors_result elevenState (by decide)]
  refine ⟨?_, ?_, ?_, ?_⟩
  · with_unfolding_all decide
  · with_unfolding_all decide
  · with_unfolding_all decide
  · with_unfolding_all decide
